import Mathlib

/-!
Shallow embedding of the cyclic paper-trading engine of the betsystem-ai
repository: the Python program `polymarket_live.py` that the installer
script `HOSTINGER_ONE_PASTE_INSTALL.sh` writes to disk (lines 33-404 of
that script).  Prices and money amounts are modelled as `Rat`; Python's
binary floating point rounding is out of scope.  Python raises
`ZeroDivisionError` on division by zero while `Rat` totalises `x / 0 = 0`;
every place where this distinction matters is marked with a comment and
the affected theorems carry a nonzero hypothesis.  Timestamps (produced
with `datetime.now()` in the source and never read back by the engine)
are omitted from the records.
-/

namespace Betsystem

/-! ### Configuration constants (CONFIG section of polymarket_live.py) -/

/-- MEAN_REVERSION_CONFIG.entry_threshold -/
def MR_entry_threshold : Rat := 40/100
/-- MEAN_REVERSION_CONFIG.stop_loss -/
def MR_stop_loss : Rat := 10/100
/-- MEAN_REVERSION_CONFIG.profit_target -/
def MR_profit_target : Rat := 60/100
/-- REVERSAL_CONFIG.momentum_2_threshold -/
def REV_momentum_2_threshold : Rat := 1/100
/-- REVERSAL_CONFIG.momentum_10_threshold -/
def REV_momentum_10_threshold : Rat := -(2/100)
/-- REVERSAL_CONFIG.stop_loss -/
def REV_stop_loss : Rat := 8/100
/-- REVERSAL_CONFIG.profit_target -/
def REV_profit_target : Rat := 5/100
/-- BANKROLL -/
def BANKROLL : Rat := 100
/-- POSITION_SIZE -/
def POSITION_SIZE : Rat := 3/1000
/-- MIN_LIQUIDITY (used only by the market-discovery filter in the source) -/
def MIN_LIQUIDITY : Rat := 100
/-- CIRCUIT_BREAKER -/
def CIRCUIT_BREAKER : Nat := 3

/-! ### Data model -/

/-- An instrument snapshot as consumed by the engine after market discovery:
`outcomes_dict` is the outcome-name-to-price mapping the source attaches as
`market["outcomes_dict"]`; `liquidity` is `market.get("liquidity", 0)` as read
by the sorting step of `run_trading_cycle`. -/
structure Market where
  id : String
  question : String
  outcomes_dict : List (String × Rat)
  liquidity : Rat
deriving Repr, DecidableEq, Inhabited

/-- An open position, with the fields the source stores in the
`positions["positions"]` list. -/
structure Position where
  market_id : String
  market_question : String
  entry_price : Rat
  shares : Rat
  amount : Rat
  strategy : String
  current_price : Rat
  unrealized_pnl : Rat
  unrealized_pnl_pct : Rat
  stop_loss_pct : Rat
  profit_target_pct : Rat
deriving Repr, DecidableEq, Inhabited

/-- The portfolio document `positions.json`. -/
structure Portfolio where
  positions : List Position
  cash : Rat
  equity : Rat
  high_water : Rat
  max_drawdown : Rat
  consecutive_losses : Nat
deriving Repr, DecidableEq, Inhabited

/-- A trade-log record (`trades.json`).  BUY records carry `strategy` and no
realized fields; SELL records carry the realized fields and no strategy, so
the optional fields are `Option`-valued. -/
structure Trade where
  ttype : String
  market : String
  strategy : Option String
  price : Rat
  shares : Rat
  amount : Rat
  realized_pnl : Option Rat
  realized_pnl_pct : Option Rat
  exit_reason : Option String
  position_id : Nat
deriving Repr, DecidableEq, Inhabited

/-- One entry of the equity curve `equity_live.json`. -/
structure EquityLog where
  cash : Rat
  equity : Rat
  positions_count : Nat
  max_drawdown : Rat
deriving Repr, DecidableEq, Inhabited

/-- The whole persisted world plus the in-memory price-history cache that
`run_trading_cycle` receives as its argument. -/
structure SysState where
  portfolio_file : Portfolio
  trades_file : List Trade
  equity_file : List EquityLog
  cache : List (String × List Rat)
deriving Repr, DecidableEq, Inhabited

/-! ### Price lookup -/

/-- Dictionary lookup, first binding wins (Python dicts have unique keys;
the feed could in principle repeat a key, in which case the first one is
kept, matching the dict-comprehension in `get_crypto_markets`). -/
def lookupOutcome (d : List (String × Rat)) (k : String) : Option Rat :=
  (d.find? (fun p => p.1 == k)).map Prod.snd

/-- The expression `outcomes_dict.get("YES", outcomes_dict.get("Up", 0.5))`
that appears verbatim in `generate_signal`, `update_position_pnl`,
`execute_trade`, `close_position` and `run_trading_cycle`. -/
def getYesPrice (m : Market) : Rat :=
  match lookupOutcome m.outcomes_dict "YES" with
  | some p => p
  | none =>
    match lookupOutcome m.outcomes_dict "Up" with
    | some p => p
    | none => 1/2

/-! ### Strategy logic -/

/-- Sum of a list of rationals. -/
def listSum (l : List Rat) : Rat := l.foldr (fun a b => a + b) 0

/-- Arithmetic mean (`statistics.mean`). -/
def listMean (l : List Rat) : Rat := listSum l / (l.length : Rat)

/-- Sample variance with Bessel's correction, i.e. the square of
`statistics.stdev`.  The engine only ever compares the standard deviation
against the positive threshold `0.15`; since `Real.sqrt` is monotone and both
sides are nonnegative, `stdev recent > 0.15` holds iff
`sampleVariance recent > 0.15 ^ 2`, which keeps the development inside `Rat`. -/
def sampleVariance (l : List Rat) : Rat :=
  let μ := listMean l
  listSum (l.map (fun x => (x - μ) ^ 2)) / ((l.length : Rat) - 1)

/-- The square of the volatility threshold `0.15` of `detect_market_regime`. -/
def VOLATILITY_THRESHOLD_SQ : Rat := (15/100) ^ 2

/-- The return threshold `0.05` of `detect_market_regime`. -/
def RETURN_THRESHOLD : Rat := 5/100

/-- Market regimes returned by `detect_market_regime`. -/
inductive Regime where
  | unknown
  | volatile
  | bull
  | bear
  | sideways
deriving Repr, DecidableEq, Inhabited

/-- `calculate_momentum(prices, period)`: `(prices[-1] - prices[-period]) /
prices[-period]` guarded by the length and nonzero checks of the source. -/
def calculate_momentum (prices : List Rat) (period : Nat) : Rat :=
  if prices.length < period + 1 then 0
  else
    let base := prices.getD (prices.length - period) 0
    if base ≠ 0 then (prices.getLastD 0 - base) / base else 0

/-- `detect_market_regime(price_history)`.  `recent` is the last ten prices;
the comparison `statistics.stdev(recent) > 0.15` is expressed on the variance
(see `sampleVariance`).  Python raises `ZeroDivisionError` when
`recent[0] = 0`; `Rat` yields `price_change = 0` there, and theorems that
depend on the ten-point branch carry a `recent[0] ≠ 0` hypothesis. -/
def detect_market_regime (price_history : List Rat) : Regime :=
  if price_history.length < 10 then Regime.unknown
  else
    let recent := price_history.drop (price_history.length - 10)
    let price_change := (recent.getLastD 0 - recent.headD 0) / recent.headD 0
    if sampleVariance recent > VOLATILITY_THRESHOLD_SQ then Regime.volatile
    else if price_change > RETURN_THRESHOLD then Regime.bull
    else if price_change < -RETURN_THRESHOLD then Regime.bear
    else Regime.sideways

/-- `should_enter_mean_reversion(yes_price, price_history)`. -/
def should_enter_mean_reversion (yes_price : Rat) (price_history : List Rat) :
    Bool × String :=
  if yes_price < MR_entry_threshold then
    let regime := detect_market_regime price_history
    if regime = Regime.bull ∨ regime = Regime.sideways then (true, "mean_reversion")
    else (false, "")
  else (false, "")

/-- `should_enter_reversal(price_history)`. -/
def should_enter_reversal (price_history : List Rat) : Bool × String :=
  if price_history.length < 10 then (false, "")
  else
    let momentum_2 := calculate_momentum price_history 2
    let momentum_10 := calculate_momentum price_history 10
    let regime := detect_market_regime price_history
    if momentum_2 > REV_momentum_2_threshold ∧
        momentum_10 < REV_momentum_10_threshold ∧
        (regime = Regime.bear ∨ regime = Regime.volatile) then (true, "reversal")
    else (false, "")

/-- `generate_signal(market, price_history)`.  The source's `except` branch
returning `(None, "")` fires only when `ZeroDivisionError` escapes
`detect_market_regime` (ten-point window starting at price zero); the `Rat`
model totalises that division, and theorems that touch the ten-point branch
carry the corresponding nonzero hypothesis. -/
def generate_signal (m : Market) (price_history : List Rat) :
    Option String × String :=
  let yes_price := getYesPrice m
  let mr := should_enter_mean_reversion yes_price price_history
  if mr.1 then (some "BUY", mr.2)
  else
    let rev := should_enter_reversal price_history
    if rev.1 then (some "BUY", rev.2)
    else (some "HOLD", "")

/-! ### Position tracking -/

/-- The per-position mark-to-market computation of `update_position_pnl`. -/
def markPosition (yes_price : Rat) (p : Position) : Position :=
  let current_value := p.shares * yes_price
  let cost_basis := p.shares * p.entry_price
  let unrealized_pnl := current_value - cost_basis
  let unrealized_pnl_pct := if cost_basis ≠ 0 then unrealized_pnl / cost_basis else 0
  { p with current_price := yes_price, unrealized_pnl := unrealized_pnl,
           unrealized_pnl_pct := unrealized_pnl_pct }

/-- The expression `sum(p.get("unrealized_pnl", 0) for p in positions["positions"])`. -/
def sumPnl (ps : List Position) : Rat := listSum (ps.map (fun p => p.unrealized_pnl))

/-- The equity, high-water and max-drawdown update that `update_position_pnl`
performs after refreshing a matching position.  Python raises
`ZeroDivisionError` when `high_water` is zero (caught by the surrounding
`except`); `Rat` yields drawdown `0` there, and the monotonicity facts proved
below hold under either reading. -/
def updateRisk (pf : Portfolio) : Portfolio :=
  let equity := pf.cash + sumPnl pf.positions
  let high_water := if equity > pf.high_water then equity else pf.high_water
  let drawdown := (high_water - equity) / high_water
  let max_drawdown := if drawdown > pf.max_drawdown then drawdown else pf.max_drawdown
  { pf with equity := equity, high_water := high_water, max_drawdown := max_drawdown }

/-- One iteration of the `for position in positions["positions"]` loop of
`update_position_pnl`: position `i` is refreshed and the risk figures
recomputed only when its `market_id` matches. -/
def updOne (yes_price : Rat) (mid : String) (pf : Portfolio) (i : Nat) : Portfolio :=
  match pf.positions[i]? with
  | none => pf
  | some p =>
    if p.market_id = mid then
      updateRisk { pf with positions := pf.positions.set i (markPosition yes_price p) }
    else pf

/-- `update_position_pnl(positions, market)`: the Python loop mutates the
position list in place, so it is modelled as a fold over the indices of the
list (whose length never changes during the loop). -/
def update_position_pnl (pf : Portfolio) (m : Market) : Portfolio :=
  let yes_price := getYesPrice m
  (List.range pf.positions.length).foldl (updOne yes_price m.id) pf

/-- The loop of `check_exit_conditions`: scan for the first position whose
`market_id` matches and whose PnL fraction triggers an exit; a matching
position that triggers neither condition is skipped (`continue`-like flow in
the source, reachable only if the one-position-per-market invariant were
violated).  The source formats the PnL fraction into the returned reason
string, e.g. `"profit_target (12.00%)"`; only the label prefix is ever
inspected downstream, so the model keeps the bare label. -/
def checkExitGo (mid : String) : List Position → Bool × String
  | [] => (false, "")
  | p :: rest =>
    if p.market_id = mid then
      if p.unrealized_pnl_pct ≥ p.profit_target_pct then (true, "profit_target")
      else if p.unrealized_pnl_pct ≤ -p.stop_loss_pct then (true, "stop_loss")
      else checkExitGo mid rest
    else checkExitGo mid rest

/-- `check_exit_conditions(positions, market)`. -/
def check_exit_conditions (pf : Portfolio) (m : Market) : Bool × String :=
  checkExitGo m.id pf.positions

/-- The `for i, position in enumerate(positions["positions"])` loop of
`close_position`: the first matching position is sold at the market's
current price, the consecutive-loss counter is reset on a strictly
profitable realized PnL and incremented otherwise, a SELL trade record is
appended, and the position is removed.  `pre` is the reversed prefix of
already-scanned positions. -/
def closeGo (yes_price : Rat) (question reason mid : String) (pf : Portfolio)
    (tr : List Trade) : Nat → List Position → List Position → Portfolio × List Trade × Bool
  | _, _, [] => (pf, tr, false)
  | i, pre, p :: rest =>
    if p.market_id = mid then
      let realized_pnl := p.unrealized_pnl
      let sell_amount := p.shares * yes_price
      let trade : Trade :=
        { ttype := "SELL", market := question, strategy := none,
          price := yes_price, shares := p.shares, amount := sell_amount,
          realized_pnl := some realized_pnl, realized_pnl_pct := some p.unrealized_pnl_pct,
          exit_reason := some reason, position_id := i }
      ({ pf with cash := pf.cash + sell_amount,
                 consecutive_losses := if realized_pnl > 0 then 0 else pf.consecutive_losses + 1,
                 positions := pre.reverse ++ rest },
       tr ++ [trade], true)
    else closeGo yes_price question reason mid pf tr (i + 1) (p :: pre) rest

/-- `close_position(positions, market, exit_reason)`, also threading the
trade log that the source loads, appends to and saves. -/
def close_position (pf : Portfolio) (tr : List Trade) (m : Market) (reason : String) :
    Portfolio × List Trade × Bool :=
  closeGo (getYesPrice m) m.question reason m.id pf tr 0 [] pf.positions

/-- `execute_trade(positions, market, signal, strategy)`.  In the source,
`shares = position_amount / yes_price` raises `ZeroDivisionError` when the
price is zero, and the surrounding `except` returns `False` before any state
is mutated; the explicit zero test keeps that behavior.  No liquidity check
appears anywhere in this function. -/
def execute_trade (pf : Portfolio) (tr : List Trade) (m : Market)
    (signal strategy : String) : Portfolio × List Trade × Bool :=
  if signal ≠ "BUY" then (pf, tr, false)
  else if CIRCUIT_BREAKER ≤ pf.consecutive_losses then (pf, tr, false)
  else
    let yes_price := getYesPrice m
    if yes_price = 0 then (pf, tr, false)
    else
      let position_amount := pf.cash * POSITION_SIZE
      let shares := position_amount / yes_price
      if position_amount > pf.cash then (pf, tr, false)
      else
        let position : Position :=
          { market_id := m.id, market_question := m.question,
            entry_price := yes_price, shares := shares, amount := position_amount,
            strategy := strategy, current_price := yes_price,
            unrealized_pnl := 0, unrealized_pnl_pct := 0,
            stop_loss_pct := if strategy = "reversal" then REV_stop_loss else MR_stop_loss,
            profit_target_pct := if strategy = "reversal" then REV_profit_target
              else MR_profit_target }
        let positions' := pf.positions ++ [position]
        let trade : Trade :=
          { ttype := "BUY", market := m.question,
            strategy := some strategy, price := yes_price, shares := shares,
            amount := position_amount, realized_pnl := none, realized_pnl_pct := none,
            exit_reason := none, position_id := positions'.length - 1 }
        ({ pf with positions := positions', cash := pf.cash - position_amount },
         tr ++ [trade], true)

/-! ### Main trading loop -/

/-- `price_history_cache[market_id]` with a missing key treated as `[]`
(the source inserts `[]` before first use). -/
def cacheGet (c : List (String × List Rat)) (k : String) : List Rat :=
  match c.find? (fun p => p.1 == k) with
  | some p => p.2
  | none => []

/-- Store a history under a key, overwriting an existing binding. -/
def cacheSet (c : List (String × List Rat)) (k : String) (v : List Rat) :
    List (String × List Rat) :=
  if c.any (fun p => p.1 == k) then
    c.map (fun p => if p.1 == k then (k, v) else p)
  else c ++ [(k, v)]

/-- The entry half of the loop body of `run_trading_cycle`: `has_position`
is tested, and only when it is false is `generate_signal` called and (when a
signal is present — both `"BUY"` and `"HOLD"` are truthy in Python)
`execute_trade` invoked. -/
def stepEntry (m : Market) (hist : List Rat) (pf : Portfolio) (tr : List Trade) :
    Portfolio × List Trade :=
  if pf.positions.any (fun p => p.market_id == m.id) then (pf, tr)
  else
    let sg := generate_signal m hist
    match sg.1 with
    | some s =>
      let r := execute_trade pf tr m s sg.2
      (r.1, r.2.1)
    | none => (pf, tr)

/-- The mark-to-market plus exit half of the loop body of
`run_trading_cycle`: `update_position_pnl`, then `check_exit_conditions`,
then `close_position` when an exit triggered. -/
def stepExitPhase (m : Market) (pf : Portfolio) (tr : List Trade) :
    Portfolio × List Trade :=
  let pf1 := update_position_pnl pf m
  let ex := check_exit_conditions pf1 m
  if ex.1 then
    let r := close_position pf1 tr m ex.2
    (r.1, r.2.1)
  else (pf1, tr)

/-- The updated price history for a market: append the current price to the
cached history and keep the last 20 observations. -/
def newHist (cache : List (String × List Rat)) (m : Market) : List Rat :=
  let hist0 := cacheGet cache m.id ++ [getYesPrice m]
  if hist0.length > 20 then hist0.drop (hist0.length - 20) else hist0

/-- One iteration of the `for market in markets` loop of `run_trading_cycle`:
append the current price to the cached history (trimmed to the last 20),
mark positions to market, evaluate and execute an exit, then evaluate an
entry if no position remains open for the market. -/
def stepMarket (acc : Portfolio × List Trade × List (String × List Rat)) (m : Market) :
    Portfolio × List Trade × List (String × List Rat) :=
  let hist := newHist acc.2.2 m
  let cache' := cacheSet acc.2.2 m.id hist
  let pftr := stepExitPhase m acc.1 acc.2.1
  let pftr2 := stepEntry m hist pftr.1 pftr.2
  (pftr2.1, pftr2.2, cache')

/-- `sorted(markets, key=lambda m: m.get("liquidity", 0), reverse=True)`:
Python's stable sort in descending key order. -/
def sortMarkets (ms : List Market) : List Market :=
  ms.mergeSort (fun a b => decide (b.liquidity ≤ a.liquidity))

/-- The body of `run_trading_cycle` on a nonempty market list: take the five
most liquid markets, run the per-market loop, recompute equity, persist the
portfolio and append one equity-curve entry. -/
def cycleBody (markets : List Market) (st : SysState) : SysState :=
  let selected := (sortMarkets markets).take 5
  let r := selected.foldl stepMarket (st.portfolio_file, st.trades_file, st.cache)
  let pf := r.1
  let pf2 := { pf with equity := pf.cash + sumPnl pf.positions }
  let entry : EquityLog :=
    { cash := pf2.cash, equity := pf2.equity,
      positions_count := pf2.positions.length, max_drawdown := pf2.max_drawdown }
  { portfolio_file := pf2, trades_file := r.2.1,
    equity_file := st.equity_file ++ [entry], cache := r.2.2 }

/-- `run_trading_cycle(price_history_cache)` with the fetched market list
made explicit (a fetch failure or timeout yields `[]` in the source).  On an
empty list the source prints and returns the loaded state immediately: no
equity recompute, no `save_positions`, no equity-curve append. -/
def run_trading_cycle (markets : List Market) (st : SysState) : SysState :=
  if markets.isEmpty then st else cycleBody markets st

/-- There is at most one open position per market identifier: the list of
identifiers of the open positions has no duplicates. -/
def onePerMarket (pf : Portfolio) : Prop :=
  (pf.positions.map (fun p => p.market_id)).Nodup

/-- Replace only the consecutive-loss counter of a portfolio (used to state
that marking, exit checking and closing do not depend on the counter). -/
def setLosses (pf : Portfolio) (n : Nat) : Portfolio :=
  { pf with consecutive_losses := n }

/-! ### Concrete fixtures used by witnesses and counterexamples -/

/-- The default portfolio document that `load_positions` returns when no
prior state exists (BANKROLL everywhere, no positions). -/
def pfInit : Portfolio :=
  { positions := [], cash := BANKROLL, equity := BANKROLL, high_water := BANKROLL,
    max_drawdown := 0, consecutive_losses := 0 }

/-- Fresh system state: default portfolio, empty logs, empty cache. -/
def stInit : SysState :=
  { portfolio_file := pfInit, trades_file := [], equity_file := [], cache := [] }

/-- A market snapshot with a YES price of 0.30. -/
def mktA : Market :=
  { id := "m1", question := "q1", outcomes_dict := [("YES", 3/10)], liquidity := 500 }

/-- A stale open position for `mktA` whose cached PnL fields are nonzero. -/
def posStale : Position :=
  { market_id := "m1", market_question := "q1", entry_price := 3/10, shares := 1,
    amount := 3/10, strategy := "mean_reversion", current_price := 2/5,
    unrealized_pnl := 5, unrealized_pnl_pct := 1/3,
    stop_loss_pct := MR_stop_loss, profit_target_pct := MR_profit_target }

/-- A system state whose persisted equity field disagrees with
`cash + Σ unrealized_pnl` (999 versus 10 + 5): a cycle that recomputed
equity would have to change it. -/
def stStale : SysState :=
  { portfolio_file :=
      { positions := [posStale], cash := 10, equity := 999, high_water := 100,
        max_drawdown := 0, consecutive_losses := 0 },
    trades_file := [], equity_file := [], cache := [] }

/-- Restatement of the regime classifier from the specification's wording
(C5), to be compared with `detect_market_regime`: over the last ten prices,
standard deviation above the volatility threshold gives `volatile`, else
return above the positive threshold gives `bull`, else return below the
negative threshold gives `bear`, else `sideways`; fewer than ten points give
`unknown`.  The window is written here as reverse-take-reverse, and the
standard-deviation comparison on the squared threshold (see
`sampleVariance`). -/
def regimeSpec (ph : List Rat) : Regime :=
  if ph.length < 10 then Regime.unknown
  else
    let window := (ph.reverse.take 10).reverse
    let ret := (window.getLastD 0 - window.headD 0) / window.headD 0
    if sampleVariance window > VOLATILITY_THRESHOLD_SQ then Regime.volatile
    else if ret > RETURN_THRESHOLD then Regime.bull
    else if ret < -RETURN_THRESHOLD then Regime.bear
    else Regime.sideways

/-- A market identical to a given one except that its outcome mapping is
exactly `YES ↦ 0.5` (used to state that a market without YES/Up keys is
processed at the constant price one half). -/
def mkHalf (m : Market) : Market :=
  { m with outcomes_dict := [("YES", 1/2)] }

/-- The price history of the specification's mean-reversion example. -/
def C7hist : List Rat :=
  [1/2, 12/25, 9/20, 43/100, 41/100, 2/5, 39/100, 21/50, 11/25, 23/50]

/-- The example's market at the current price 0.39. -/
def C7market : Market :=
  { id := "m7", question := "q7", outcomes_dict := [("YES", 39/100)], liquidity := 500 }

/-- The example's market after the price moved to 0.65. -/
def C7marketExit : Market :=
  { id := "m7", question := "q7", outcomes_dict := [("YES", 65/100)], liquidity := 500 }

/-- A mean-reversion position entered at the example's price 0.39 with a
notional of 0.3 (cash 100 at the 0.3 percent sizing). -/
def posMR : Position :=
  { market_id := "m7", market_question := "q7", entry_price := 39/100,
    shares := 10/13, amount := 3/10, strategy := "mean_reversion",
    current_price := 39/100, unrealized_pnl := 0, unrealized_pnl_pct := 0,
    stop_loss_pct := MR_stop_loss, profit_target_pct := MR_profit_target }

/-- The portfolio holding `posMR` after its entry. -/
def pfMR : Portfolio :=
  { positions := [posMR], cash := 997/10, equity := 997/10, high_water := 100,
    max_drawdown := 0, consecutive_losses := 0 }

/-- A position for `mktA` whose marked PnL fraction (2/3) is above its
profit-target fraction (3/5). -/
def posHot : Position :=
  { market_id := "m1", market_question := "q1", entry_price := 3/10, shares := 1,
    amount := 3/10, strategy := "mean_reversion", current_price := 1/2,
    unrealized_pnl := 1/5, unrealized_pnl_pct := 2/3,
    stop_loss_pct := MR_stop_loss, profit_target_pct := MR_profit_target }

/-- The portfolio holding only `posHot`. -/
def pfHot : Portfolio :=
  { positions := [posHot], cash := 10, equity := 10, high_water := 100,
    max_drawdown := 0, consecutive_losses := 0 }

/-- A market whose liquidity 0 is below `MIN_LIQUIDITY`. -/
def mktLowLiq : Market :=
  { id := "m9", question := "q9", outcomes_dict := [("YES", 3/10)], liquidity := 0 }

/-- A portfolio with negative cash, the only way the source's
`position_amount > cash` test can fire (`position_amount = cash * 0.003`). -/
def pfNegCash : Portfolio :=
  { positions := [], cash := -1, equity := -1, high_water := 100,
    max_drawdown := 0, consecutive_losses := 0 }

/-- A market whose outcome mapping has neither a `YES` nor an `Up` key. -/
def mktNoKeys : Market :=
  { id := "m1", question := "q1", outcomes_dict := [("NO", 3/10)], liquidity := 500 }

/-- A portfolio whose loss counter sits exactly at the circuit-breaker
threshold (three consecutive losing closes starting from zero). -/
def pfTripped : Portfolio :=
  { positions := [], cash := 100, equity := 100, high_water := 100,
    max_drawdown := 0, consecutive_losses := 3 }

/-- A portfolio holding the profitable position `posStale` (PnL +5) with a
nonzero loss counter. -/
def pfWin : Portfolio :=
  { positions := [posStale], cash := 10, equity := 15, high_water := 100,
    max_drawdown := 0, consecutive_losses := 2 }

end Betsystem

namespace Betsystem

/-! ### Helper lemmas -/

/-- Setting an index to the element already stored there is the identity. -/
theorem set_self_of_getElem {α : Type} : ∀ (l : List α) (i : Nat) (a : α),
    l[i]? = some a → l.set i a = l
  | [], i, a, h => by simp at h
  | b :: t, 0, a, h => by
    simp only [List.getElem?_cons_zero, Option.some.injEq] at h
    simp [h]
  | b :: t, i + 1, a, h => by
    simp only [List.getElem?_cons_succ] at h
    simp [List.set, set_self_of_getElem t i a h]

/-- `markPosition` does not change the market identifier. -/
theorem markPosition_market_id (yp : Rat) (p : Position) :
    (markPosition yp p).market_id = p.market_id := rfl

/-- `updateRisk` does not change the position list. -/
theorem updateRisk_positions (pf : Portfolio) : (updateRisk pf).positions = pf.positions := rfl

/-- One mark-to-market iteration leaves the list of market identifiers
unchanged. -/
theorem marketIds_updOne (yp : Rat) (mid : String) (pf : Portfolio) (i : Nat) :
    ((updOne yp mid pf i).positions).map (fun p => p.market_id) =
      pf.positions.map (fun p => p.market_id) := by
  unfold updOne
  cases h : pf.positions[i]? with
  | none => rfl
  | some p =>
    dsimp only
    by_cases hm : p.market_id = mid
    · have hmap : (pf.positions.set i (markPosition yp p)).map (fun q => q.market_id) =
          (pf.positions.map (fun q => q.market_id)).set i p.market_id := by
        simp [List.map_set, markPosition_market_id]
      rw [if_pos hm]
      show (pf.positions.set i (markPosition yp p)).map (fun q => q.market_id) =
        pf.positions.map (fun q => q.market_id)
      rw [hmap]
      apply set_self_of_getElem
      simp [h]
    · simp [hm]

/-- The mark-to-market pass leaves the list of market identifiers of the
open positions unchanged (positions are neither created nor destroyed,
and each keeps its identifier). -/
theorem marketIds_foldl_updOne (yp : Rat) (mid : String) :
    ∀ (idxs : List Nat) (pf : Portfolio),
      ((idxs.foldl (updOne yp mid) pf).positions).map (fun p => p.market_id) =
        pf.positions.map (fun p => p.market_id)
  | [], _ => rfl
  | i :: t, pf => by
    rw [List.foldl_cons, marketIds_foldl_updOne yp mid t (updOne yp mid pf i),
      marketIds_updOne]

/-- Specialisation of the previous lemma to `update_position_pnl`. -/
theorem marketIds_update_position_pnl (pf : Portfolio) (m : Market) :
    ((update_position_pnl pf m).positions).map (fun p => p.market_id) =
      pf.positions.map (fun p => p.market_id) :=
  marketIds_foldl_updOne _ _ _ _

/-! ### C1 — behavior of a cycle on an empty instrument feed -/

/-- C1, counterexample.  On the concrete state `stStale` (whose persisted
equity field 999 disagrees with cash 10 plus the open position's PnL 5) a
cycle with an empty feed returns the state unchanged: the equity curve
receives no entry (length stays 0, the claim demands exactly one new entry)
and the persisted equity is not recomputed from the open position's
last-known price. -/
theorem C1_counterexample :
    run_trading_cycle [] stStale = stStale ∧
    (run_trading_cycle [] stStale).equity_file.length = 0 ∧
    ¬ ((run_trading_cycle [] stStale).equity_file.length =
        stStale.equity_file.length + 1) ∧
    ¬ ((run_trading_cycle [] stStale).portfolio_file.equity =
        (run_trading_cycle [] stStale).portfolio_file.cash +
          sumPnl (run_trading_cycle [] stStale).portfolio_file.positions) := by
  refine ⟨rfl, rfl, by simp [stStale, run_trading_cycle], ?_⟩
  norm_num [run_trading_cycle, stStale, posStale, sumPnl, listSum]

/-- C1, amended.  If the instrument feed returns an empty list (or the fetch
fails or times out, which the source maps to an empty list), `run_trading_cycle`
returns the loaded state immediately: cash, open positions and the trade log
are unchanged, but contrary to the claim no equity recompute happens, the
portfolio is not re-persisted, and no equity-curve entry is appended — the
whole system state is exactly as before the cycle. -/
theorem C1_amended_empty_feed_noop (st : SysState) : run_trading_cycle [] st = st := rfl

/-! ### C2 — equity invariant after the recompute step -/

/-- C2.  Whenever the market list is nonempty (so that the cycle reaches its
equity-recompute step), the persisted portfolio at the end of the cycle
satisfies `equity = cash + Σ unrealized_pnl (open positions)`. -/
theorem C2_equity_invariant (ms : List Market) (st : SysState) (h : ms ≠ []) :
    (run_trading_cycle ms st).portfolio_file.equity =
      (run_trading_cycle ms st).portfolio_file.cash +
        sumPnl (run_trading_cycle ms st).portfolio_file.positions := by
  cases ms with
  | nil => exact absurd rfl h
  | cons a l => rfl

/-- Witness for C2 at a concrete nonempty feed and the fresh initial state. -/
theorem C2_witness :
    (run_trading_cycle [mktA] stInit).portfolio_file.equity =
      (run_trading_cycle [mktA] stInit).portfolio_file.cash +
        sumPnl (run_trading_cycle [mktA] stInit).portfolio_file.positions :=
  C2_equity_invariant [mktA] stInit (List.cons_ne_nil _ _)

/-! ### C9 — monotonicity of high-water mark and max drawdown -/

/-- The risk update can only raise the high-water mark. -/
theorem updateRisk_hw_mono (pf : Portfolio) :
    pf.high_water ≤ (updateRisk pf).high_water := by
  dsimp only [updateRisk]
  split
  · exact le_of_lt (by assumption)
  · exact le_refl _

/-- The risk update can only raise the recorded max drawdown. -/
theorem updateRisk_dd_mono (pf : Portfolio) :
    pf.max_drawdown ≤ (updateRisk pf).max_drawdown := by
  dsimp only [updateRisk]
  split
  all_goals split
  all_goals first
  | exact le_of_lt (by assumption)
  | exact le_refl _

/-- One mark-to-market iteration can only raise both risk figures. -/
theorem updOne_risk_mono (yp : Rat) (mid : String) (pf : Portfolio) (i : Nat) :
    pf.high_water ≤ (updOne yp mid pf i).high_water ∧
      pf.max_drawdown ≤ (updOne yp mid pf i).max_drawdown := by
  unfold updOne
  cases pf.positions[i]? with
  | none => exact ⟨le_refl _, le_refl _⟩
  | some p =>
    dsimp only
    by_cases hm : p.market_id = mid
    · rw [if_pos hm]
      exact ⟨updateRisk_hw_mono _, updateRisk_dd_mono _⟩
    · rw [if_neg hm]
      exact ⟨le_refl _, le_refl _⟩

/-- The whole mark-to-market loop can only raise both risk figures. -/
theorem foldl_updOne_risk_mono (yp : Rat) (mid : String) :
    ∀ (idxs : List Nat) (pf : Portfolio),
      pf.high_water ≤ (idxs.foldl (updOne yp mid) pf).high_water ∧
        pf.max_drawdown ≤ (idxs.foldl (updOne yp mid) pf).max_drawdown
  | [], _ => ⟨le_refl _, le_refl _⟩
  | i :: t, pf => by
    rw [List.foldl_cons]
    have h1 := updOne_risk_mono yp mid pf i
    have h2 := foldl_updOne_risk_mono yp mid t (updOne yp mid pf i)
    exact ⟨le_trans h1.1 h2.1, le_trans h1.2 h2.2⟩

/-- `update_position_pnl` can only raise both risk figures. -/
theorem update_position_pnl_risk_mono (pf : Portfolio) (m : Market) :
    pf.high_water ≤ (update_position_pnl pf m).high_water ∧
      pf.max_drawdown ≤ (update_position_pnl pf m).max_drawdown :=
  foldl_updOne_risk_mono _ _ _ _

/-- The closing loop never changes the high-water mark, the max drawdown or
the equity field. -/
theorem closeGo_risk_fields (yp : Rat) (q r mid : String) (pf : Portfolio) (tr : List Trade) :
    ∀ (i : Nat) (pre l : List Position),
      (closeGo yp q r mid pf tr i pre l).1.high_water = pf.high_water ∧
      (closeGo yp q r mid pf tr i pre l).1.max_drawdown = pf.max_drawdown ∧
      (closeGo yp q r mid pf tr i pre l).1.equity = pf.equity
  | _, _, [] => ⟨rfl, rfl, rfl⟩
  | i, pre, p :: rest => by
    by_cases h : p.market_id = mid
    · simp only [closeGo, if_pos h]
      exact ⟨trivial, trivial, trivial⟩
    · simp only [closeGo, if_neg h]
      exact closeGo_risk_fields yp q r mid pf tr (i + 1) (p :: pre) rest

/-- `close_position` never changes the high-water mark or the max drawdown. -/
theorem close_position_risk_fields (pf : Portfolio) (tr : List Trade) (m : Market)
    (r : String) :
    (close_position pf tr m r).1.high_water = pf.high_water ∧
    (close_position pf tr m r).1.max_drawdown = pf.max_drawdown :=
  ⟨(closeGo_risk_fields _ _ _ _ _ _ _ _ _).1,
   (closeGo_risk_fields _ _ _ _ _ _ _ _ _).2.1⟩

/-- `execute_trade` never changes the high-water mark or the max drawdown. -/
theorem execute_trade_risk_fields (pf : Portfolio) (tr : List Trade) (m : Market)
    (s strat : String) :
    (execute_trade pf tr m s strat).1.high_water = pf.high_water ∧
    (execute_trade pf tr m s strat).1.max_drawdown = pf.max_drawdown := by
  unfold execute_trade
  by_cases h1 : s ≠ "BUY"
  · rw [if_pos h1]
    exact ⟨rfl, rfl⟩
  rw [if_neg h1]
  by_cases h2 : CIRCUIT_BREAKER ≤ pf.consecutive_losses
  · rw [if_pos h2]
    exact ⟨rfl, rfl⟩
  rw [if_neg h2]
  dsimp only
  by_cases h3 : getYesPrice m = 0
  · rw [if_pos h3]
    exact ⟨rfl, rfl⟩
  rw [if_neg h3]
  by_cases h4 : pf.cash * POSITION_SIZE > pf.cash
  · rw [if_pos h4]
    exact ⟨rfl, rfl⟩
  rw [if_neg h4]
  exact ⟨rfl, rfl⟩

/-- The entry half of the loop body never changes the risk figures. -/
theorem stepEntry_risk_fields (m : Market) (hist : List Rat) (pf : Portfolio)
    (tr : List Trade) :
    (stepEntry m hist pf tr).1.high_water = pf.high_water ∧
    (stepEntry m hist pf tr).1.max_drawdown = pf.max_drawdown := by
  unfold stepEntry
  split
  · exact ⟨rfl, rfl⟩
  dsimp only
  cases (generate_signal m hist).1 with
  | none => exact ⟨rfl, rfl⟩
  | some s =>
    dsimp only
    exact ⟨(execute_trade_risk_fields pf tr m s _).1,
      (execute_trade_risk_fields pf tr m s _).2⟩

/-- The exit half of the loop body can only raise both risk figures. -/
theorem stepExitPhase_risk_mono (m : Market) (pf : Portfolio) (tr : List Trade) :
    pf.high_water ≤ (stepExitPhase m pf tr).1.high_water ∧
      pf.max_drawdown ≤ (stepExitPhase m pf tr).1.max_drawdown := by
  unfold stepExitPhase
  dsimp only
  have hupd := update_position_pnl_risk_mono pf m
  split
  · have hc := close_position_risk_fields (update_position_pnl pf m) tr m
      (check_exit_conditions (update_position_pnl pf m) m).2
    exact ⟨hc.1 ▸ hupd.1, hc.2 ▸ hupd.2⟩
  · exact hupd

/-- One whole loop iteration can only raise both risk figures. -/
theorem stepMarket_risk_mono (acc : Portfolio × List Trade × List (String × List Rat))
    (m : Market) :
    acc.1.high_water ≤ (stepMarket acc m).1.high_water ∧
      acc.1.max_drawdown ≤ (stepMarket acc m).1.max_drawdown := by
  unfold stepMarket
  dsimp only
  have hx := stepExitPhase_risk_mono m acc.1 acc.2.1
  have he := stepEntry_risk_fields m (newHist acc.2.2 m) (stepExitPhase m acc.1 acc.2.1).1
    (stepExitPhase m acc.1 acc.2.1).2
  exact ⟨he.1 ▸ hx.1, he.2 ▸ hx.2⟩

/-- The fold of the loop over a market list can only raise both risk figures. -/
theorem foldl_stepMarket_risk_mono :
    ∀ (ms : List Market) (acc : Portfolio × List Trade × List (String × List Rat)),
      acc.1.high_water ≤ (ms.foldl stepMarket acc).1.high_water ∧
        acc.1.max_drawdown ≤ (ms.foldl stepMarket acc).1.max_drawdown
  | [], _ => ⟨le_refl _, le_refl _⟩
  | m :: t, acc => by
    rw [List.foldl_cons]
    have h1 := stepMarket_risk_mono acc m
    have h2 := foldl_stepMarket_risk_mono t (stepMarket acc m)
    exact ⟨le_trans h1.1 h2.1, le_trans h1.2 h2.2⟩

/-- C9.  Every operation of the engine — the mark-to-market pass, closing a
position, opening a position, one whole loop iteration, and a full cycle —
leaves the portfolio's high-water mark and recorded max drawdown at or above
their previous values, so both are monotonically non-decreasing across every
sequence of operations within and across cycles. -/
theorem C9_risk_monotone :
    (∀ (pf : Portfolio) (m : Market),
      pf.high_water ≤ (update_position_pnl pf m).high_water ∧
        pf.max_drawdown ≤ (update_position_pnl pf m).max_drawdown) ∧
    (∀ (pf : Portfolio) (tr : List Trade) (m : Market) (r : String),
      pf.high_water ≤ (close_position pf tr m r).1.high_water ∧
        pf.max_drawdown ≤ (close_position pf tr m r).1.max_drawdown) ∧
    (∀ (pf : Portfolio) (tr : List Trade) (m : Market) (s strat : String),
      pf.high_water ≤ (execute_trade pf tr m s strat).1.high_water ∧
        pf.max_drawdown ≤ (execute_trade pf tr m s strat).1.max_drawdown) ∧
    (∀ (acc : Portfolio × List Trade × List (String × List Rat)) (m : Market),
      acc.1.high_water ≤ (stepMarket acc m).1.high_water ∧
        acc.1.max_drawdown ≤ (stepMarket acc m).1.max_drawdown) ∧
    (∀ (ms : List Market) (st : SysState),
      st.portfolio_file.high_water ≤ (run_trading_cycle ms st).portfolio_file.high_water ∧
        st.portfolio_file.max_drawdown ≤
          (run_trading_cycle ms st).portfolio_file.max_drawdown) := by
  refine ⟨update_position_pnl_risk_mono, ?_, ?_, stepMarket_risk_mono, ?_⟩
  · intro pf tr m r
    have h := close_position_risk_fields pf tr m r
    exact ⟨le_of_eq h.1.symm, le_of_eq h.2.symm⟩
  · intro pf tr m s strat
    have h := execute_trade_risk_fields pf tr m s strat
    exact ⟨le_of_eq h.1.symm, le_of_eq h.2.symm⟩
  · intro ms st
    cases ms with
    | nil => exact ⟨le_refl _, le_refl _⟩
    | cons a l =>
      show st.portfolio_file.high_water ≤ (cycleBody (a :: l) st).portfolio_file.high_water ∧ _
      unfold cycleBody
      dsimp only
      have h := foldl_stepMarket_risk_mono ((sortMarkets (a :: l)).take 5)
        (st.portfolio_file, st.trades_file, st.cache)
      exact h

/-! ### C3 — loss-streak circuit breaker -/

/-- The loss counter after the closing loop: determined by the sign of the
realized PnL of the first matching position. -/
theorem closeGo_losses (yp : Rat) (q r mid : String) (pf : Portfolio) (tr : List Trade) :
    ∀ (i : Nat) (pre l : List Position) (p : Position),
      l.find? (fun x => x.market_id == mid) = some p →
      (closeGo yp q r mid pf tr i pre l).1.consecutive_losses =
        (if p.unrealized_pnl > 0 then 0 else pf.consecutive_losses + 1)
  | _, _, [], p, h => by simp at h
  | i, pre, x :: rest, p, h => by
    by_cases hx : x.market_id = mid
    · rw [List.find?_cons_of_pos _ (by simp [hx])] at h
      have hxp : x = p := by
        injection h
      subst hxp
      simp only [closeGo, if_pos hx]
    · rw [List.find?_cons_of_neg _ (by simp [hx])] at h
      simp only [closeGo, if_neg hx]
      exact closeGo_losses yp q r mid pf tr (i + 1) (x :: pre) rest p h

/-- The loss counter after `close_position`, when a matching position exists. -/
theorem close_position_losses (pf : Portfolio) (tr : List Trade) (m : Market)
    (r : String) (p : Position)
    (h : pf.positions.find? (fun x => x.market_id == m.id) = some p) :
    (close_position pf tr m r).1.consecutive_losses =
      (if p.unrealized_pnl > 0 then 0 else pf.consecutive_losses + 1) :=
  closeGo_losses _ _ _ _ _ _ 0 [] pf.positions p h

/-- A single mark-to-market iteration commutes with replacing the loss
counter: it neither reads nor writes the counter. -/
theorem updOne_setLosses (yp : Rat) (mid : String) (pf : Portfolio) (n : Nat) (i : Nat) :
    updOne yp mid (setLosses pf n) i = setLosses (updOne yp mid pf i) n := by
  unfold updOne setLosses
  dsimp only
  cases pf.positions[i]? with
  | none => rfl
  | some p =>
    dsimp only
    by_cases hm : p.market_id = mid
    · rw [if_pos hm, if_pos hm]
      exact rfl
    · rw [if_neg hm, if_neg hm]

/-- The whole mark-to-market fold commutes with replacing the loss counter. -/
theorem foldl_updOne_setLosses (yp : Rat) (mid : String) :
    ∀ (idxs : List Nat) (pf : Portfolio) (n : Nat),
      idxs.foldl (updOne yp mid) (setLosses pf n) =
        setLosses (idxs.foldl (updOne yp mid) pf) n
  | [], _, _ => rfl
  | i :: t, pf, n => by
    rw [List.foldl_cons, List.foldl_cons, updOne_setLosses,
      foldl_updOne_setLosses yp mid t (updOne yp mid pf i) n]

/-- The closing loop's effect on positions, cash, the trade log and the
success flag is independent of the loss counter. -/
theorem closeGo_setLosses (yp : Rat) (q r mid : String) (pf : Portfolio)
    (tr : List Trade) (n : Nat) :
    ∀ (i : Nat) (pre l : List Position),
      (closeGo yp q r mid (setLosses pf n) tr i pre l).1.positions =
        (closeGo yp q r mid pf tr i pre l).1.positions ∧
      (closeGo yp q r mid (setLosses pf n) tr i pre l).1.cash =
        (closeGo yp q r mid pf tr i pre l).1.cash ∧
      (closeGo yp q r mid (setLosses pf n) tr i pre l).2 =
        (closeGo yp q r mid pf tr i pre l).2
  | _, _, [] => ⟨rfl, rfl, rfl⟩
  | i, pre, x :: rest => by
    by_cases hx : x.market_id = mid
    · simp only [closeGo, if_pos hx]
      exact ⟨by trivial, by trivial, by trivial⟩
    · simp only [closeGo, if_neg hx]
      exact closeGo_setLosses yp q r mid pf tr n (i + 1) (x :: pre) rest

/-- An entry is vetoed outright while the breaker is tripped. -/
theorem execute_trade_veto_tripped (pf : Portfolio) (tr : List Trade) (m : Market)
    (s strat : String) (h : CIRCUIT_BREAKER ≤ pf.consecutive_losses) :
    execute_trade pf tr m s strat = (pf, tr, false) := by
  unfold execute_trade
  by_cases h1 : s ≠ "BUY"
  · rw [if_pos h1]
  · rw [if_neg h1, if_pos h]

/-- A BUY signal is accepted (the trade executes) whenever the breaker is not
tripped, the price is nonzero and the notional does not exceed cash. -/
theorem execute_trade_accepts (pf : Portfolio) (tr : List Trade) (m : Market)
    (strat : String) (h1 : pf.consecutive_losses < CIRCUIT_BREAKER)
    (h2 : getYesPrice m ≠ 0) (h3 : ¬ pf.cash * POSITION_SIZE > pf.cash) :
    (execute_trade pf tr m "BUY" strat).2.2 = true := by
  unfold execute_trade
  rw [if_neg (show ¬ "BUY" ≠ "BUY" by simp)]
  rw [if_neg (not_le.mpr h1)]
  dsimp only
  rw [if_neg h2, if_neg h3]

/-- C3.  The circuit breaker with threshold `CIRCUIT_BREAKER = 3`:
a losing close increments the consecutive-loss counter by one (so three
consecutive losing closes starting from zero leave it at 3); while the
counter is at or above the threshold every entry is vetoed as a pure no-op;
the mark-to-market pass, the exit check and the closing logic are all
independent of the counter (open positions are still marked and can still
exit while tripped); a strictly profitable close resets the counter to 0;
and with the counter below the threshold a BUY entry with a nonzero price
and sufficient cash is accepted. -/
theorem C3_circuit_breaker :
    (∀ (pf : Portfolio) (tr : List Trade) (m : Market) (r : String) (p : Position),
      pf.positions.find? (fun x => x.market_id == m.id) = some p →
      ¬ p.unrealized_pnl > 0 →
      (close_position pf tr m r).1.consecutive_losses = pf.consecutive_losses + 1) ∧
    (∀ (pf : Portfolio) (tr : List Trade) (m : Market) (s strat : String),
      CIRCUIT_BREAKER ≤ pf.consecutive_losses →
      execute_trade pf tr m s strat = (pf, tr, false)) ∧
    (∀ (pf : Portfolio) (m : Market) (n : Nat),
      update_position_pnl (setLosses pf n) m = setLosses (update_position_pnl pf m) n) ∧
    (∀ (pf : Portfolio) (m : Market) (n : Nat),
      check_exit_conditions (setLosses pf n) m = check_exit_conditions pf m) ∧
    (∀ (pf : Portfolio) (tr : List Trade) (m : Market) (r : String) (n : Nat),
      (close_position (setLosses pf n) tr m r).1.positions =
        (close_position pf tr m r).1.positions ∧
      (close_position (setLosses pf n) tr m r).1.cash =
        (close_position pf tr m r).1.cash ∧
      (close_position (setLosses pf n) tr m r).2 = (close_position pf tr m r).2) ∧
    (∀ (pf : Portfolio) (tr : List Trade) (m : Market) (r : String) (p : Position),
      pf.positions.find? (fun x => x.market_id == m.id) = some p →
      p.unrealized_pnl > 0 →
      (close_position pf tr m r).1.consecutive_losses = 0) ∧
    (∀ (pf : Portfolio) (tr : List Trade) (m : Market) (strat : String),
      pf.consecutive_losses < CIRCUIT_BREAKER → getYesPrice m ≠ 0 →
      ¬ pf.cash * POSITION_SIZE > pf.cash →
      (execute_trade pf tr m "BUY" strat).2.2 = true) := by
  refine ⟨?_, execute_trade_veto_tripped, ?_, ?_, ?_, ?_, execute_trade_accepts⟩
  · intro pf tr m r p h hp
    rw [close_position_losses pf tr m r p h, if_neg hp]
  · intro pf m n
    unfold update_position_pnl
    exact foldl_updOne_setLosses _ _ _ pf n
  · intro pf m n
    rfl
  · intro pf tr m r n
    exact closeGo_setLosses _ _ _ _ pf tr n 0 [] pf.positions
  · intro pf tr m r p h hp
    rw [close_position_losses pf tr m r p h, if_pos hp]

/-- Witness for C3 at concrete inputs: a tripped portfolio vetoes a BUY as a
no-op; closing the profitable position of `pfWin` resets the counter from 2
to 0; and a fresh portfolio (counter 0) accepts a BUY. -/
theorem C3_witness :
    execute_trade pfTripped [] mktA "BUY" "mean_reversion" = (pfTripped, [], false) ∧
    (close_position pfWin [] mktA "profit_target").1.consecutive_losses = 0 ∧
    (execute_trade pfInit [] mktA "BUY" "mean_reversion").2.2 = true := by
  refine ⟨C3_circuit_breaker.2.1 pfTripped [] mktA "BUY" "mean_reversion" ?_,
    C3_circuit_breaker.2.2.2.2.2.1 pfWin [] mktA "profit_target" posStale ?_ ?_,
    C3_circuit_breaker.2.2.2.2.2.2 pfInit [] mktA "mean_reversion" ?_ ?_ ?_⟩
  · simp [pfTripped, CIRCUIT_BREAKER]
  · rfl
  · norm_num [posStale]
  · simp [pfInit, CIRCUIT_BREAKER]
  · norm_num [getYesPrice, mktA, lookupOutcome, List.find?]
  · norm_num [pfInit, POSITION_SIZE, BANKROLL]

/-! ### C4 — at most one open position per instrument -/

/-- The closing loop returns a sublist of the original positions (it only
ever removes one position). -/
theorem closeGo_positions_sublist (yp : Rat) (q r mid : String) (pf : Portfolio)
    (tr : List Trade) :
    ∀ (i : Nat) (pre l : List Position), pf.positions = pre.reverse ++ l →
      List.Sublist (closeGo yp q r mid pf tr i pre l).1.positions pf.positions
  | _, _, [], _ => by
    simp only [closeGo]
    exact List.Sublist.refl _
  | i, pre, x :: rest, h => by
    by_cases hx : x.market_id = mid
    · simp only [closeGo, if_pos hx]
      rw [h]
      exact (List.append_sublist_append_left _).mpr (List.sublist_cons_self x rest)
    · simp only [closeGo, if_neg hx]
      apply closeGo_positions_sublist yp q r mid pf tr (i + 1) (x :: pre) rest
      rw [h]
      simp [List.append_assoc]
  termination_by _ _ l => l.length

/-- `close_position` returns a sublist of the original positions. -/
theorem close_position_positions_sublist (pf : Portfolio) (tr : List Trade)
    (m : Market) (r : String) :
    List.Sublist (close_position pf tr m r).1.positions pf.positions :=
  closeGo_positions_sublist _ _ _ _ _ _ 0 [] pf.positions (by simp)

/-- `execute_trade` either leaves the identifier list unchanged (veto) or
appends exactly the traded market's identifier. -/
theorem execute_trade_ids (pf : Portfolio) (tr : List Trade) (m : Market)
    (s strat : String) :
    (execute_trade pf tr m s strat).1.positions.map (fun p => p.market_id) =
      pf.positions.map (fun p => p.market_id) ∨
    (execute_trade pf tr m s strat).1.positions.map (fun p => p.market_id) =
      pf.positions.map (fun p => p.market_id) ++ [m.id] := by
  unfold execute_trade
  by_cases h1 : s ≠ "BUY"
  · rw [if_pos h1]
    exact Or.inl rfl
  rw [if_neg h1]
  by_cases h2 : CIRCUIT_BREAKER ≤ pf.consecutive_losses
  · rw [if_pos h2]
    exact Or.inl rfl
  rw [if_neg h2]
  dsimp only
  by_cases h3 : getYesPrice m = 0
  · rw [if_pos h3]
    exact Or.inl rfl
  rw [if_neg h3]
  by_cases h4 : pf.cash * POSITION_SIZE > pf.cash
  · rw [if_pos h4]
    exact Or.inl rfl
  rw [if_neg h4]
  exact Or.inr (by simp)

/-- If no open position matches an identifier, that identifier is not in the
identifier list. -/
theorem not_mem_ids_of_any_false (l : List Position) (mid : String)
    (h : l.any (fun p => p.market_id == mid) = false) :
    mid ∉ l.map (fun p => p.market_id) := by
  simp only [List.any_eq_false] at h
  intro hm
  obtain ⟨p, hp, hpe⟩ := List.mem_map.mp hm
  exact absurd (by simp [hpe]) (h p hp)

/-- The mark-to-market pass preserves uniqueness of positions per market. -/
theorem update_position_pnl_onePerMarket (pf : Portfolio) (m : Market)
    (h : onePerMarket pf) : onePerMarket (update_position_pnl pf m) := by
  unfold onePerMarket
  rw [marketIds_update_position_pnl]
  exact h

/-- Closing preserves uniqueness of positions per market. -/
theorem close_position_onePerMarket (pf : Portfolio) (tr : List Trade) (m : Market)
    (r : String) (h : onePerMarket pf) : onePerMarket (close_position pf tr m r).1 :=
  h.sublist ((close_position_positions_sublist pf tr m r).map _)

/-- Opening a position for a market with no open position preserves
uniqueness. -/
theorem execute_trade_onePerMarket (pf : Portfolio) (tr : List Trade) (m : Market)
    (s strat : String) (h : onePerMarket pf)
    (hno : pf.positions.any (fun p => p.market_id == m.id) = false) :
    onePerMarket (execute_trade pf tr m s strat).1 := by
  cases execute_trade_ids pf tr m s strat with
  | inl he =>
    unfold onePerMarket
    rw [he]
    exact h
  | inr he =>
    unfold onePerMarket
    rw [he]
    simp only [List.nodup_append, List.nodup_cons, List.not_mem_nil, not_false_iff,
      List.nodup_nil, and_true, true_and]
    refine ⟨h, ?_⟩
    intro a ha hb
    simp only [List.mem_singleton] at hb
    subst hb
    exact absurd ha (not_mem_ids_of_any_false pf.positions m.id hno)

/-- The entry phase is skipped entirely when the market already has an open
position. -/
theorem stepEntry_noop_if_open (m : Market) (hist : List Rat) (pf : Portfolio)
    (tr : List Trade) (h : pf.positions.any (fun p => p.market_id == m.id) = true) :
    stepEntry m hist pf tr = (pf, tr) := by
  unfold stepEntry
  rw [if_pos h]

/-- The entry phase preserves uniqueness of positions per market. -/
theorem stepEntry_onePerMarket (m : Market) (hist : List Rat) (pf : Portfolio)
    (tr : List Trade) (h : onePerMarket pf) : onePerMarket (stepEntry m hist pf tr).1 := by
  unfold stepEntry
  cases hb : pf.positions.any (fun p => p.market_id == m.id) with
  | true =>
    rw [if_pos rfl]
    exact h
  | false =>
    rw [if_neg (by simp)]
    dsimp only
    cases (generate_signal m hist).1 with
    | none => exact h
    | some s =>
      dsimp only
      exact execute_trade_onePerMarket pf tr m s _ h hb

/-- The exit phase preserves uniqueness of positions per market. -/
theorem stepExitPhase_onePerMarket (m : Market) (pf : Portfolio) (tr : List Trade)
    (h : onePerMarket pf) : onePerMarket (stepExitPhase m pf tr).1 := by
  unfold stepExitPhase
  dsimp only
  have hu := update_position_pnl_onePerMarket pf m h
  split
  · exact close_position_onePerMarket _ _ _ _ hu
  · exact hu

/-- One whole loop iteration preserves uniqueness of positions per market. -/
theorem stepMarket_onePerMarket (acc : Portfolio × List Trade × List (String × List Rat))
    (m : Market) (h : onePerMarket acc.1) : onePerMarket (stepMarket acc m).1 := by
  unfold stepMarket
  dsimp only
  exact stepEntry_onePerMarket _ _ _ _ (stepExitPhase_onePerMarket m acc.1 acc.2.1 h)

/-- The loop fold preserves uniqueness of positions per market. -/
theorem foldl_stepMarket_onePerMarket :
    ∀ (ms : List Market) (acc : Portfolio × List Trade × List (String × List Rat)),
      onePerMarket acc.1 → onePerMarket (ms.foldl stepMarket acc).1
  | [], _, h => h
  | m :: t, acc, h => by
    rw [List.foldl_cons]
    exact foldl_stepMarket_onePerMarket t (stepMarket acc m) (stepMarket_onePerMarket acc m h)

/-- C4.  Uniqueness of open positions per instrument: under the invariant
that the loaded state has at most one open position per market identifier,
every phase of the cycle — mark-to-market, closing, an accepted entry, one
whole loop iteration, and a full cycle — preserves it, and the entry phase
is a no-op (no signal is even generated) for a market that already has an
open position. -/
theorem C4_one_position_per_instrument :
    (∀ (pf : Portfolio) (m : Market),
      onePerMarket pf → onePerMarket (update_position_pnl pf m)) ∧
    (∀ (pf : Portfolio) (tr : List Trade) (m : Market) (r : String),
      onePerMarket pf → onePerMarket (close_position pf tr m r).1) ∧
    (∀ (pf : Portfolio) (tr : List Trade) (m : Market) (s strat : String),
      onePerMarket pf → pf.positions.any (fun p => p.market_id == m.id) = false →
      onePerMarket (execute_trade pf tr m s strat).1) ∧
    (∀ (m : Market) (hist : List Rat) (pf : Portfolio) (tr : List Trade),
      pf.positions.any (fun p => p.market_id == m.id) = true →
      stepEntry m hist pf tr = (pf, tr)) ∧
    (∀ (acc : Portfolio × List Trade × List (String × List Rat)) (m : Market),
      onePerMarket acc.1 → onePerMarket (stepMarket acc m).1) ∧
    (∀ (ms : List Market) (st : SysState),
      onePerMarket st.portfolio_file →
      onePerMarket (run_trading_cycle ms st).portfolio_file) := by
  refine ⟨update_position_pnl_onePerMarket, close_position_onePerMarket,
    execute_trade_onePerMarket, stepEntry_noop_if_open, stepMarket_onePerMarket, ?_⟩
  intro ms st h
  cases ms with
  | nil => exact h
  | cons a l =>
    show onePerMarket (cycleBody (a :: l) st).portfolio_file
    exact foldl_stepMarket_onePerMarket ((sortMarkets (a :: l)).take 5)
      (st.portfolio_file, st.trades_file, st.cache) h

/-- Witness for C4 at concrete inputs: the fresh state satisfies the
invariant, a concrete cycle preserves it, and the entry phase is skipped for
`pfWin`, which already holds a position for `mktA`. -/
theorem C4_witness :
    onePerMarket (run_trading_cycle [mktA] stInit).portfolio_file ∧
    stepEntry mktA [] pfWin [] = (pfWin, []) := by
  refine ⟨C4_one_position_per_instrument.2.2.2.2.2 [mktA] stInit ?_,
    C4_one_position_per_instrument.2.2.2.1 mktA [] pfWin [] ?_⟩
  · simp [onePerMarket, stInit, pfInit]
  · rfl

/-! ### C5 — the regime detector -/

/-- The last-ten window written as reverse-take-reverse equals the drop form
used in the embedding of the source. -/
theorem window_reverse_take (ph : List Rat) :
    (ph.reverse.take 10).reverse = ph.drop (ph.length - 10) :=
  (List.rtake_eq_reverse_take_reverse ph 10).symm

/-- The source's regime classifier agrees everywhere with the classifier
restated from the specification's wording. -/
theorem detect_eq_regimeSpec (ph : List Rat) :
    detect_market_regime ph = regimeSpec ph := by
  unfold detect_market_regime regimeSpec
  by_cases h : ph.length < 10
  · rw [if_pos h, if_pos h]
  · rw [if_neg h, if_neg h]
    dsimp only
    rw [window_reverse_take]

/-- C5.  The regime detector is the pure function described by the claim:
it agrees with the classifier restated from the claim's wording (precedence
volatile, then bull, then bear, then sideways over the last ten prices,
with the standard-deviation comparison carried on its square), and with
fewer than ten points it returns `unknown` and the signal generator emits
no entry signal (a plain HOLD) for any market. -/
theorem C5_regime_detector :
    (∀ (ph : List Rat), detect_market_regime ph = regimeSpec ph) ∧
    (∀ (ph : List Rat) (m : Market), ph.length < 10 →
      detect_market_regime ph = Regime.unknown ∧
      generate_signal m ph = (some "HOLD", "")) := by
  refine ⟨detect_eq_regimeSpec, ?_⟩
  intro ph m h
  have hd : detect_market_regime ph = Regime.unknown := by
    unfold detect_market_regime
    rw [if_pos h]
  refine ⟨hd, ?_⟩
  by_cases hyp : getYesPrice m < MR_entry_threshold
  · simp +decide [generate_signal, should_enter_mean_reversion,
      should_enter_reversal, hd, h, hyp]
  · simp +decide [generate_signal, should_enter_mean_reversion,
      should_enter_reversal, hd, h, hyp]

/-- Witness for C5 at the empty history and a concrete market. -/
theorem C5_witness :
    detect_market_regime ([] : List Rat) = Regime.unknown ∧
    generate_signal mktA [] = (some "HOLD", "") :=
  C5_regime_detector.2 [] mktA (by decide)

/-! ### C6 — exit decision of the position manager -/

/-- C6.  For a portfolio holding one position for the market under
consideration, the exit check fires `profit_target` when the PnL fraction
is at or above the profit-target fraction, else `stop_loss` when it is at
or below minus the stop-loss fraction, else nothing; when both bounds hold
at once (zero-width configurations), `profit_target` wins because it is
tested first. -/
theorem C6_exit_decision (pf : Portfolio) (m : Market) (p : Position)
    (hps : pf.positions = [p]) (hid : p.market_id = m.id) :
    (p.unrealized_pnl_pct ≥ p.profit_target_pct →
      check_exit_conditions pf m = (true, "profit_target")) ∧
    (¬ p.unrealized_pnl_pct ≥ p.profit_target_pct →
      p.unrealized_pnl_pct ≤ -p.stop_loss_pct →
      check_exit_conditions pf m = (true, "stop_loss")) ∧
    (¬ p.unrealized_pnl_pct ≥ p.profit_target_pct →
      ¬ p.unrealized_pnl_pct ≤ -p.stop_loss_pct →
      check_exit_conditions pf m = (false, "")) ∧
    (p.unrealized_pnl_pct ≥ p.profit_target_pct →
      p.unrealized_pnl_pct ≤ -p.stop_loss_pct →
      check_exit_conditions pf m = (true, "profit_target")) := by
  unfold check_exit_conditions
  rw [hps]
  refine ⟨?_, ?_, ?_, ?_⟩
  · intro h1
    simp only [checkExitGo, if_pos hid, if_pos h1]
  · intro h1 h2
    simp only [checkExitGo, if_pos hid, if_neg h1, if_pos h2]
  · intro h1 h2
    simp only [checkExitGo, if_pos hid, if_neg h1, if_neg h2]
  · intro h1 _
    simp only [checkExitGo, if_pos hid, if_pos h1]

/-- Witness for C6: the concrete position `posHot` (PnL fraction 2/3, target
3/5) triggers a profit-target exit. -/
theorem C6_witness :
    check_exit_conditions pfHot mktA = (true, "profit_target") :=
  (C6_exit_decision pfHot mktA posHot rfl rfl).1 (by norm_num [posHot, MR_profit_target])

/-! ### C7 — the specification's mean-reversion example -/

/-- C7, counterexample.  On the example history
`[0.50, 0.48, 0.45, 0.43, 0.41, 0.40, 0.39, 0.42, 0.44, 0.46]` the regime
detector returns `bear` (the ten-point return is −8 percent, below the −5
percent threshold), not `sideways`, and with the current price 0.39 the
signal generator returns a plain HOLD — no BUY and in particular no
mean-reversion entry. -/
theorem C7_counterexample :
    detect_market_regime C7hist = Regime.bear ∧
    ¬ detect_market_regime C7hist = Regime.sideways ∧
    generate_signal C7market C7hist = (some "HOLD", "") ∧
    ¬ (generate_signal C7market C7hist).2 = "mean_reversion" := by
  have hbear : detect_market_regime C7hist = Regime.bear := by
    norm_num [detect_market_regime, C7hist, sampleVariance, listSum, listMean,
      VOLATILITY_THRESHOLD_SQ, RETURN_THRESHOLD]
  have hsig : generate_signal C7market C7hist = (some "HOLD", "") := by
    norm_num [generate_signal, C7market, C7hist, getYesPrice, lookupOutcome,
      should_enter_mean_reversion, should_enter_reversal, detect_market_regime,
      sampleVariance, listSum, listMean, VOLATILITY_THRESHOLD_SQ, RETURN_THRESHOLD,
      MR_entry_threshold, REV_momentum_2_threshold, REV_momentum_10_threshold,
      calculate_momentum]
    simp +decide
  refine ⟨hbear, ?_, hsig, ?_⟩
  · rw [hbear]
    simp +decide
  · rw [hsig]
    simp

/-- C7, amended.  On the example history the regime is `bear`, so the
mean-reversion rule is blocked by the regime even though 0.39 is below the
0.40 entry threshold, and the reversal rule is blocked too because the
ten-point momentum requires eleven points and returns 0 on this ten-point
history: the generator yields HOLD and no position is opened.  The exit half
of the example does hold: for a mean-reversion position entered at 0.39, a
subsequent price of 0.65 marks the position to an unrealized fraction of
2/3 ≥ 0.60 and triggers a profit-target exit. -/
theorem C7_amended :
    detect_market_regime C7hist = Regime.bear ∧
    calculate_momentum C7hist 10 = 0 ∧
    generate_signal C7market C7hist = (some "HOLD", "") ∧
    check_exit_conditions (update_position_pnl pfMR C7marketExit) C7marketExit =
      (true, "profit_target") := by
  refine ⟨?_, ?_, ?_, ?_⟩
  · norm_num [detect_market_regime, C7hist, sampleVariance, listSum, listMean,
      VOLATILITY_THRESHOLD_SQ, RETURN_THRESHOLD]
  · norm_num [calculate_momentum, C7hist]
  · norm_num [generate_signal, C7market, C7hist, getYesPrice, lookupOutcome,
      should_enter_mean_reversion, should_enter_reversal, detect_market_regime,
      sampleVariance, listSum, listMean, VOLATILITY_THRESHOLD_SQ, RETURN_THRESHOLD,
      MR_entry_threshold, REV_momentum_2_threshold, REV_momentum_10_threshold,
      calculate_momentum]
    simp +decide
  · norm_num [check_exit_conditions, update_position_pnl, updOne, updateRisk,
      markPosition, checkExitGo, pfMR, posMR, C7marketExit, getYesPrice,
      lookupOutcome, List.find?, sumPnl, listSum, MR_profit_target, MR_stop_loss,
      List.range_succ]

/-! ### C8 — entry vetoes of the risk controller -/

/-- C8, counterexample.  `execute_trade` performs no liquidity check: for the
market `mktLowLiq`, whose liquidity 0 is below the configured minimum 100, a
BUY from the fresh portfolio is executed rather than vetoed — a position is
appended and cash is debited. -/
theorem C8_counterexample :
    mktLowLiq.liquidity < MIN_LIQUIDITY ∧
    (execute_trade pfInit [] mktLowLiq "BUY" "mean_reversion").2.2 = true ∧
    (execute_trade pfInit [] mktLowLiq "BUY" "mean_reversion").1.positions.length = 1 ∧
    (execute_trade pfInit [] mktLowLiq "BUY" "mean_reversion").1.cash =
      pfInit.cash - pfInit.cash * POSITION_SIZE := by
  refine ⟨by norm_num [mktLowLiq, MIN_LIQUIDITY], ?_, ?_, ?_⟩ <;>
    norm_num [execute_trade, pfInit, mktLowLiq, getYesPrice, lookupOutcome,
      POSITION_SIZE, BANKROLL, CIRCUIT_BREAKER]

/-- C8, amended.  An accepted entry signal is vetoed — as a no-op returning
the portfolio and trade log unchanged, not an error — exactly when the
circuit breaker is tripped or when the required notional exceeds available
cash; the instrument's liquidity is not consulted at entry time (it is
enforced only by the market-discovery filter). -/
theorem C8_amended_vetoes (pf : Portfolio) (tr : List Trade) (m : Market)
    (s strat : String) :
    (CIRCUIT_BREAKER ≤ pf.consecutive_losses →
      execute_trade pf tr m s strat = (pf, tr, false)) ∧
    (pf.cash * POSITION_SIZE > pf.cash →
      execute_trade pf tr m s strat = (pf, tr, false)) := by
  refine ⟨execute_trade_veto_tripped pf tr m s strat, ?_⟩
  intro hcash
  unfold execute_trade
  by_cases h1 : s ≠ "BUY"
  · rw [if_pos h1]
  rw [if_neg h1]
  by_cases h2 : CIRCUIT_BREAKER ≤ pf.consecutive_losses
  · rw [if_pos h2]
  rw [if_neg h2]
  dsimp only
  by_cases h3 : getYesPrice m = 0
  · rw [if_pos h3]
  rw [if_neg h3]
  rw [if_pos hcash]

/-- Witness for C8 at concrete inputs: the tripped portfolio and the
negative-cash portfolio both veto a BUY as exact no-ops. -/
theorem C8_witness :
    execute_trade pfTripped [] mktA "BUY" "reversal" = (pfTripped, [], false) ∧
    execute_trade pfNegCash [] mktA "BUY" "reversal" = (pfNegCash, [], false) := by
  refine ⟨(C8_amended_vetoes pfTripped [] mktA "BUY" "reversal").1 ?_,
    (C8_amended_vetoes pfNegCash [] mktA "BUY" "reversal").2 ?_⟩
  · simp [pfTripped, CIRCUIT_BREAKER]
  · norm_num [pfNegCash, POSITION_SIZE]

/-! ### C10 — default price one half when YES and Up are both absent -/

/-- C10.  For a market whose outcome mapping has neither a `YES` nor an `Up`
key, the price resolves to the constant one half, and signal generation,
mark-to-market, entry execution and position closing all behave exactly as
they would on a market quoted at 0.5 — none of them fails or skips the
instrument. -/
theorem C10_default_half (m : Market)
    (h1 : lookupOutcome m.outcomes_dict "YES" = none)
    (h2 : lookupOutcome m.outcomes_dict "Up" = none) :
    getYesPrice m = 1/2 ∧
    (∀ (ph : List Rat), generate_signal m ph = generate_signal (mkHalf m) ph) ∧
    (∀ (pf : Portfolio), update_position_pnl pf m = update_position_pnl pf (mkHalf m)) ∧
    (∀ (pf : Portfolio) (tr : List Trade) (s strat : String),
      execute_trade pf tr m s strat = execute_trade pf tr (mkHalf m) s strat) ∧
    (∀ (pf : Portfolio) (tr : List Trade) (r : String),
      close_position pf tr m r = close_position pf tr (mkHalf m) r) := by
  have hg : getYesPrice m = 1/2 := by
    unfold getYesPrice
    rw [h1, h2]
  have hg2 : getYesPrice (mkHalf m) = 1/2 := rfl
  refine ⟨hg, ?_, ?_, ?_, ?_⟩
  · intro ph
    unfold generate_signal
    rw [hg, hg2]
  · intro pf
    unfold update_position_pnl
    rw [hg, hg2]
    rfl
  · intro pf tr s strat
    unfold execute_trade
    rw [hg, hg2]
    rfl
  · intro pf tr r
    unfold close_position
    rw [hg, hg2]
    rfl

/-- Witness for C10 at the concrete market `mktNoKeys` (outcomes contain
only a `NO` key). -/
theorem C10_witness :
    getYesPrice mktNoKeys = 1/2 ∧
    execute_trade pfInit [] mktNoKeys "BUY" "mean_reversion" =
      execute_trade pfInit [] (mkHalf mktNoKeys) "BUY" "mean_reversion" := by
  have h1 : lookupOutcome mktNoKeys.outcomes_dict "YES" = none := rfl
  have h2 : lookupOutcome mktNoKeys.outcomes_dict "Up" = none := rfl
  exact ⟨(C10_default_half mktNoKeys h1 h2).1,
    (C10_default_half mktNoKeys h1 h2).2.2.2.1 pfInit [] "BUY" "mean_reversion"⟩

end Betsystem
